import Mathlib

/-!
Verification of the sales-transaction subsystem of the Suaza ERP backend
(`backend/src/routes/sales.js`).

The route handlers are embedded as pure functions over an explicit database
state `DB`.  Monetary amounts are modelled as rationals (the backend stores
decimal numbers and the tax rate is the constant `0.19`), stock quantities as
integers (the ORM `decrement` operation is unconditional, so stock can in
principle go negative), and fallible handlers return `Except`.  A request
that fails before its transaction, or whose transaction aborts, leaves the
database unchanged; this is captured by wrappers such as `postSale`.
-/

namespace Suaza

/-- A product row: the fields of the catalog the sales routes touch
(`id`, `name` for error messages, current `stock`). -/
structure Product where
  id : Nat
  name : String
  stock : Int
  deriving DecidableEq

/-- One line of a sale-creation request body: `{productId, quantity, unitPrice}`. -/
structure LineItem where
  productId : Nat
  quantity : Int
  unitPrice : Rat
  deriving DecidableEq

/-- A persisted sale row (the fields the sales routes read or write). -/
structure Sale where
  id : Nat
  invoiceNumber : String
  customerId : Option Nat
  customerName : String
  subtotal : Rat
  taxAmount : Rat
  totalAmount : Rat
  paymentMethod : String
  status : String
  deriving DecidableEq

/-- A persisted sale line row. -/
structure SaleItem where
  saleId : Nat
  productId : Nat
  quantity : Int
  unitPrice : Rat
  totalPrice : Rat
  deriving DecidableEq

/-- An inventory-movement audit row.  The cancellation path writes no stock
snapshots, so `previousStock`/`newStock` are optional. -/
structure InventoryMovement where
  productId : Nat
  type : String
  quantity : Int
  previousStock : Option Int
  newStock : Option Int
  reference : String
  deriving DecidableEq

/-- A credit (receivable) row as created by the sale path. -/
structure Credit where
  customerId : Nat
  amount : Rat
  balance : Rat
  interestRate : Rat
  term : Int
  dueDate : Int
  status : String
  notes : String
  deriving DecidableEq

/-- The database state the sales routes read and mutate.  Customers are only
ever looked up by id, so they are modelled by their ids. -/
structure DB where
  customers : List Nat
  products : List Product
  sales : List Sale
  saleItems : List SaleItem
  movements : List InventoryMovement
  credits : List Credit
  deriving DecidableEq

/-- `prisma.product.findUnique({ where: { id } })`. -/
def findProduct (ps : List Product) (pid : Nat) : Option Product :=
  ps.find? fun p => p.id == pid

/-- The stock of product `pid`, `none` when the product does not exist. -/
def stockOf (ps : List Product) (pid : Nat) : Option Int :=
  (findProduct ps pid).map fun p => p.stock

/-- `prisma.product.update({ where: { id: pid }, data: { stock: { increment d } } })`
(a decrement is `d < 0`). -/
def bumpStock (ps : List Product) (pid : Nat) (d : Int) : List Product :=
  ps.map fun p => if p.id = pid then { p with stock := p.stock + d } else p

/-- `prisma.sale.findUnique({ where: { id } })`. -/
def findSale (ss : List Sale) (sid : Nat) : Option Sale :=
  ss.find? fun s => s.id == sid

/-- The sale line rows belonging to sale `sid` (the `items` relation of a sale). -/
def saleItemsOf (db : DB) (sid : Nat) : List SaleItem :=
  db.saleItems.filter fun si => si.saleId == sid

/-- A sale-creation request body after JSON parsing. -/
structure SaleRequest where
  customerId : Option Nat
  customerName : Option String
  items : List LineItem
  paymentMethod : String
  deriving DecidableEq

/-- The payment methods accepted by the validator:
`body('paymentMethod').isIn(['cash', 'card', 'transfer', 'credit'])`. -/
def validPaymentMethod (pm : String) : Bool :=
  pm == "cash" || pm == "card" || pm == "transfer" || pm == "credit"

/-- The express-validator checks on the request body: `items` is a non-empty
array, every quantity is an integer `≥ 1`, every unit price is `≥ 0`, and the
payment method is one of the four accepted strings. -/
def validRequest (req : SaleRequest) : Bool :=
  !req.items.isEmpty &&
  (req.items.all fun it => decide (1 ≤ it.quantity) && decide (0 ≤ it.unitPrice)) &&
  validPaymentMethod req.paymentMethod

/-- The customer check: when a `customerId` is supplied the customer must exist. -/
def customerOk (db : DB) : Option Nat → Bool
  | none => true
  | some cid => db.customers.contains cid

/-- The errors the POST /sales handler can answer with. -/
inductive SaleError where
  | validationFailed
  | customerNotFound
  | productNotFound (productId : Nat)
  | insufficientStock (name : String) (available : Int)
  | internalError
  deriving DecidableEq

/-- The pre-transaction check loop of POST /sales: for each line, look the
product up; answer 400 when it is missing or when `product.stock < item.quantity`
(the insufficient-stock message names the product and its available stock).
The first offending line decides the answer. -/
def stockError (ps : List Product) : List LineItem → Option SaleError
  | [] => none
  | it :: rest =>
    match findProduct ps it.productId with
    | none => some (SaleError.productNotFound it.productId)
    | some p =>
      if p.stock < it.quantity then
        some (SaleError.insufficientStock p.name p.stock)
      else
        stockError ps rest

/-- `subtotal = items.reduce((sum, item) => sum + item.quantity * item.unitPrice, 0)`. -/
def itemsSubtotal (items : List LineItem) : Rat :=
  items.foldl (fun sum it => sum + (it.quantity : Rat) * it.unitPrice) 0

/-- The hard-coded Colombian VAT rate `0.19`. -/
def taxRate : Rat := 19 / 100

/-- The sale row assembled by POST /sales: computed totals
(`tax = subtotal * 0.19`, `total = subtotal + tax`), denormalized customer
name defaulting to "Cliente General", and status `PENDING` for credit sales,
`PAID` otherwise. -/
def mkSale (req : SaleRequest) (inv : String) (sid : Nat) : Sale :=
  let subtotal := itemsSubtotal req.items
  let tax := subtotal * taxRate
  { id := sid
    invoiceNumber := inv
    customerId := req.customerId
    customerName := req.customerName.getD "Cliente General"
    subtotal := subtotal
    taxAmount := tax
    totalAmount := subtotal + tax
    paymentMethod := req.paymentMethod
    status := if req.paymentMethod = "credit" then "PENDING" else "PAID" }

/-- Modelled from the spec: the Prisma schema that declares the `Credit` table
is not among the repository sources (only its callers are), so the stored
`balance` of a credit row that the sale path creates without passing an
explicit balance follows the spec: "insert a Credit row (amount=total,
balance=total, status=ACTIVE, dueDate = now+30 days)". -/
def defaultSaleCreditBalance (total : Rat) : Rat := total

/-- The credit row created for a credit sale with a registered customer:
amount = total, zero interest, 30-day term, `dueDate = now + 30*24*60*60*1000`
milliseconds, status `ACTIVE`. -/
def mkSaleCredit (cid : Nat) (total : Rat) (now : Int) (inv : String) : Credit :=
  { customerId := cid
    amount := total
    balance := defaultSaleCreditBalance total
    interestRate := 0
    term := 30
    dueDate := now + 30 * 24 * 60 * 60 * 1000
    status := "ACTIVE"
    notes := "Credito por venta " ++ inv }

/-- The per-line transaction body of POST /sales: insert the `SaleItem`,
read the product's current stock, decrement it by the line quantity, and
append an `InventoryMovement(type=SALE, quantity=-qty, previousStock,
newStock, reference="Sale " + invoiceNumber)`.  A missing product makes the
transaction throw, modelled as `none`. -/
def applySaleItems (sid : Nat) (inv : String) : DB → List LineItem → Option DB
  | db, [] => some db
  | db, it :: rest =>
    let db1 := { db with
      saleItems := db.saleItems ++
        [({ saleId := sid
            productId := it.productId
            quantity := it.quantity
            unitPrice := it.unitPrice
            totalPrice := (it.quantity : Rat) * it.unitPrice } : SaleItem)] }
    match findProduct db1.products it.productId with
    | none => none
    | some p =>
      let db2 := { db1 with products := bumpStock db1.products it.productId (-it.quantity) }
      let db3 := { db2 with
        movements := db2.movements ++
          [({ productId := it.productId
              type := "SALE"
              quantity := -it.quantity
              previousStock := some p.stock
              newStock := some (p.stock - it.quantity)
              reference := "Sale " ++ inv } : InventoryMovement)] }
      applySaleItems sid inv db3 rest

/-- The credit step of the sale transaction: only when the payment method is
`credit` and a customerId was supplied is a credit row appended. -/
def addCredit (db : DB) (req : SaleRequest) (total : Rat) (now : Int) (inv : String) : DB :=
  if req.paymentMethod = "credit" then
    match req.customerId with
    | some cid => { db with credits := db.credits ++ [mkSaleCredit cid total now inv] }
    | none => db
  else db

/-- POST /sales: validate the body, check the customer, run the stock
pre-check loop over all lines, then run the transaction (insert the sale,
process every line, optionally insert a credit row). -/
def createSale (db : DB) (req : SaleRequest) (inv : String) (now : Int) (sid : Nat) :
    Except SaleError (DB × Sale) :=
  if ¬ validRequest req then Except.error SaleError.validationFailed
  else if ¬ customerOk db req.customerId then Except.error SaleError.customerNotFound
  else
    match stockError db.products req.items with
    | some e => Except.error e
    | none =>
      match applySaleItems sid inv
          { db with sales := db.sales ++ [mkSale req inv sid] } req.items with
      | none => Except.error SaleError.internalError
      | some db2 =>
        Except.ok (addCredit db2 req (mkSale req inv sid).totalAmount now inv, mkSale req inv sid)

/-- The observable effect of POST /sales on the database: a request that is
rejected, or whose transaction aborts, leaves the state unchanged. -/
def postSale (db : DB) (req : SaleRequest) (inv : String) (now : Int) (sid : Nat) :
    DB × Except SaleError Sale :=
  match createSale db req inv now sid with
  | Except.ok (db2, sale) => (db2, Except.ok sale)
  | Except.error e => (db, Except.error e)

/-- The errors the PUT /sales/:id/status handler can answer with. -/
inductive StatusError where
  | validationFailed
  | saleNotFound
  | internalError
  deriving DecidableEq

/-- `body('status').isIn(['pending', 'completed', 'cancelled'])`. -/
def validStatus (st : String) : Bool :=
  st == "pending" || st == "completed" || st == "cancelled"

/-- The compensation transaction run when a sale is cancelled: for every line
row, increment the product's stock by the line quantity and append an
`InventoryMovement(type=SALE_CANCELLATION, quantity=+qty,
reference="Sale " + invoice + " cancelled")` with no stock snapshots.
A missing product makes the transaction throw, modelled as `none`. -/
def restoreItems (inv : String) : DB → List SaleItem → Option DB
  | db, [] => some db
  | db, si :: rest =>
    match findProduct db.products si.productId with
    | none => none
    | some _ =>
      let db1 := { db with
        products := bumpStock db.products si.productId si.quantity
        movements := db.movements ++
          [({ productId := si.productId
              type := "SALE_CANCELLATION"
              quantity := si.quantity
              previousStock := none
              newStock := none
              reference := "Sale " ++ inv ++ " cancelled" } : InventoryMovement)] }
      restoreItems inv db1 rest

/-- PUT /sales/:id/status: validate the requested status, look the sale up,
run the stock-restoring compensation when (and only when) the request moves a
non-cancelled sale to `cancelled`, and finally write the requested status.
There is no other guard on the transition. -/
def updateSaleStatus (db : DB) (sid : Nat) (st : String) : Except StatusError DB :=
  if ¬ validStatus st then Except.error StatusError.validationFailed
  else
    match findSale db.sales sid with
    | none => Except.error StatusError.saleNotFound
    | some sale =>
      let restored :=
        if st = "cancelled" ∧ sale.status ≠ "cancelled" then
          restoreItems sale.invoiceNumber db (saleItemsOf db sid)
        else some db
      match restored with
      | none => Except.error StatusError.internalError
      | some db1 =>
        Except.ok { db1 with
          sales := db1.sales.map fun s => if s.id = sid then { s with status := st } else s }

/-- The errors the DELETE /sales/:id handler can answer with. -/
inductive DeleteError where
  | saleNotFound
  | conflictCompleted
  | internalError
  deriving DecidableEq

/-- The stock-restoring loop of the delete transaction: increment only, no
inventory movement is recorded on this path. -/
def restoreStockOnly : DB → List SaleItem → Option DB
  | db, [] => some db
  | db, si :: rest =>
    match findProduct db.products si.productId with
    | none => none
    | some _ =>
      restoreStockOnly { db with products := bumpStock db.products si.productId si.quantity } rest

/-- DELETE /sales/:id: look the sale up, answer 400 when its status is the
string "completed", otherwise in one transaction restore every line's stock,
delete the sale's line rows, and delete the sale row. -/
def deleteSale (db : DB) (sid : Nat) : Except DeleteError DB :=
  match findSale db.sales sid with
  | none => Except.error DeleteError.saleNotFound
  | some sale =>
    if sale.status = "completed" then Except.error DeleteError.conflictCompleted
    else
      match restoreStockOnly db (saleItemsOf db sid) with
      | none => Except.error DeleteError.internalError
      | some db1 =>
        Except.ok { db1 with
          saleItems := db1.saleItems.filter fun si => !(si.saleId == sid)
          sales := db1.sales.filter fun s => !(s.id == sid) }

/-! ### Derived notions used to state the properties -/

/-- Apply a per-product stock shift: product `p` gains `g p.id` units.
Both the per-line decrements of sale creation and the per-line increments of
cancellation/deletion compose into such a shift. -/
def shiftStock (g : Nat → Int) (ps : List Product) : List Product :=
  ps.map fun p => { p with stock := p.stock + g p.id }

/-- Total quantity that the request lines ask of product `pid`. -/
def qtySumReq (items : List LineItem) (pid : Nat) : Int :=
  ((items.filter fun it => it.productId == pid).map fun it => it.quantity).sum

/-- Total quantity of product `pid` over a list of persisted sale lines. -/
def qtySumItems (sis : List SaleItem) (pid : Nat) : Int :=
  ((sis.filter fun si => si.productId == pid).map fun si => si.quantity).sum

/-- The persisted `SaleItem` row a request line must produce. -/
def saleItemMatches (sid : Nat) (it : LineItem) (si : SaleItem) : Prop :=
  si.saleId = sid ∧ si.productId = it.productId ∧ si.quantity = it.quantity ∧
  si.unitPrice = it.unitPrice ∧ si.totalPrice = (it.quantity : Rat) * it.unitPrice

/-- The inventory movements the sale transaction appends: one per line, in
order, of type `SALE`, carrying `-quantity`, the stock snapshots taken just
before and after the line's decrement (tracked by threading the product list
through the lines), and a reference naming the invoice. -/
def movsRecord (inv : String) : List Product → List LineItem → List InventoryMovement → Prop
  | _, [], [] => True
  | ps, it :: items, m :: ms =>
    m.productId = it.productId ∧ m.type = "SALE" ∧ m.quantity = -it.quantity ∧
    (∃ p, findProduct ps it.productId = some p ∧
      m.previousStock = some p.stock ∧ m.newStock = some (p.stock - it.quantity)) ∧
    m.reference = "Sale " ++ inv ∧
    movsRecord inv (bumpStock ps it.productId (-it.quantity)) items ms
  | _, _, _ => False

/-- The compensating movement the cancellation path appends for a sale line:
type `SALE_CANCELLATION`, `+quantity`, no stock snapshots. -/
def cancelMovMatches (inv : String) (si : SaleItem) (m : InventoryMovement) : Prop :=
  m.productId = si.productId ∧ m.type = "SALE_CANCELLATION" ∧ m.quantity = si.quantity ∧
  m.previousStock = none ∧ m.newStock = none ∧
  m.reference = "Sale " ++ inv ++ " cancelled"

/-- The stock invariant: product ids are unique (a database key), every
product's stock is non-negative, and every persisted sale line carries a
non-negative quantity. -/
def StockInv (db : DB) : Prop :=
  (db.products.map fun p => p.id).Nodup ∧
  (∀ p ∈ db.products, 0 ≤ p.stock) ∧
  (∀ si ∈ db.saleItems, 0 ≤ si.quantity)

/-- One accepted mutation through the sales routes.  The `create` step carries
the amendment forced by `C9_counterexample`: its line items must reference
pairwise-distinct products (the handler's per-line pre-check reads the
unmutated stock, so duplicated lines can oversell). -/
inductive SalesStep : DB → DB → Prop
  | create {db db' : DB} (req : SaleRequest) (inv : String) (now : Int) (sid : Nat) (sale : Sale)
      (hnodup : (req.items.map fun it => it.productId).Nodup)
      (h : createSale db req inv now sid = Except.ok (db', sale)) : SalesStep db db'
  | setStatus {db db' : DB} (sid : Nat) (st : String)
      (h : updateSaleStatus db sid st = Except.ok db') : SalesStep db db'
  | remove {db db' : DB} (sid : Nat)
      (h : deleteSale db sid = Except.ok db') : SalesStep db db'

/-! ### Concrete states and requests instantiating the verified properties -/

/-- Scenario A: one product with stock 10 and price 25000. -/
def c1Db : DB :=
  { customers := [], products := [{ id := 1, name := "Producto P", stock := 10 }],
    sales := [], saleItems := [], movements := [], credits := [] }

/-- Scenario A request: qty 2 at unit price 25000, paid cash, walk-in. -/
def c1Req : SaleRequest :=
  { customerId := none, customerName := none,
    items := [{ productId := 1, quantity := 2, unitPrice := 25000 }],
    paymentMethod := "cash" }

/-- Scenario B: one product with stock 8. -/
def c2Db : DB :=
  { customers := [], products := [{ id := 1, name := "Producto P", stock := 8 }],
    sales := [], saleItems := [], movements := [], credits := [] }

/-- Scenario B request: qty 9 exceeds the available 8. -/
def c2Req : SaleRequest :=
  { customerId := none, customerName := none,
    items := [{ productId := 1, quantity := 9, unitPrice := 25000 }],
    paymentMethod := "cash" }

/-- Boundary scenario: one product with stock 5. -/
def c3Db : DB :=
  { customers := [], products := [{ id := 1, name := "Producto P", stock := 5 }],
    sales := [], saleItems := [], movements := [], credits := [] }

/-- Boundary request: quantity exactly equal to the available stock. -/
def c3Req : SaleRequest :=
  { customerId := none, customerName := none,
    items := [{ productId := 1, quantity := 5, unitPrice := 1000 }],
    paymentMethod := "cash" }

/-- A pending sale of 2 units whose product now has stock 3 (pre-sale 5). -/
def c4Db : DB :=
  { customers := [], products := [{ id := 1, name := "Producto P", stock := 3 }],
    sales := [{ id := 1, invoiceNumber := "INV-0004", customerId := none,
                customerName := "Cliente General", subtotal := 2000, taxAmount := 380,
                totalAmount := 2380, paymentMethod := "cash", status := "PENDING" }],
    saleItems := [{ saleId := 1, productId := 1, quantity := 2, unitPrice := 1000,
                    totalPrice := 2000 }],
    movements := [], credits := [] }

/-- The state produced by cancelling the sale of `c4Db`. -/
def c4Db1 : DB :=
  { customers := [], products := [{ id := 1, name := "Producto P", stock := 5 }],
    sales := [{ id := 1, invoiceNumber := "INV-0004", customerId := none,
                customerName := "Cliente General", subtotal := 2000, taxAmount := 380,
                totalAmount := 2380, paymentMethod := "cash", status := "cancelled" }],
    saleItems := [{ saleId := 1, productId := 1, quantity := 2, unitPrice := 1000,
                    totalPrice := 2000 }],
    movements := [{ productId := 1, type := "SALE_CANCELLATION", quantity := 2,
                    previousStock := none, newStock := none,
                    reference := "Sale INV-0004 cancelled" }],
    credits := [] }

/-- A sale persisted with the status string "PAID", the value the creation
path writes for every non-credit sale. -/
def c5Db : DB :=
  { customers := [], products := [{ id := 1, name := "Producto P", stock := 10 }],
    sales := [{ id := 1, invoiceNumber := "INV-0005", customerId := none,
                customerName := "Cliente General", subtotal := 2000, taxAmount := 380,
                totalAmount := 2380, paymentMethod := "cash", status := "PAID" }],
    saleItems := [{ saleId := 1, productId := 1, quantity := 2, unitPrice := 1000,
                    totalPrice := 2000 }],
    movements := [], credits := [] }

/-- A registered customer (id 7) and one product. -/
def c6Db : DB :=
  { customers := [7], products := [{ id := 1, name := "Producto P", stock := 10 }],
    sales := [], saleItems := [], movements := [], credits := [] }

/-- Scenario C request: credit sale with a registered customer. -/
def c6Req : SaleRequest :=
  { customerId := some 7, customerName := none,
    items := [{ productId := 1, quantity := 1, unitPrice := 100 }],
    paymentMethod := "credit" }

/-- Scenario D request: credit sale with no customer (walk-in). -/
def c6ReqW : SaleRequest :=
  { customerId := none, customerName := none,
    items := [{ productId := 1, quantity := 1, unitPrice := 100 }],
    paymentMethod := "credit" }

/-- A sale in the supposedly terminal status "PAID", with no line items. -/
def c7Db : DB :=
  { customers := [], products := [],
    sales := [{ id := 1, invoiceNumber := "INV-0007", customerId := none,
                customerName := "Cliente General", subtotal := 2000, taxAmount := 380,
                totalAmount := 2380, paymentMethod := "cash", status := "PAID" }],
    saleItems := [], movements := [], credits := [] }

/-- A pending sale of 2 units whose product now has stock 3. -/
def c8Db : DB :=
  { customers := [], products := [{ id := 1, name := "Producto P", stock := 3 }],
    sales := [{ id := 1, invoiceNumber := "INV-0008", customerId := none,
                customerName := "Cliente General", subtotal := 2000, taxAmount := 380,
                totalAmount := 2380, paymentMethod := "cash", status := "PENDING" }],
    saleItems := [{ saleId := 1, productId := 1, quantity := 2, unitPrice := 1000,
                    totalPrice := 2000 }],
    movements := [], credits := [] }

/-- The state produced by deleting the sale of `c8Db`. -/
def c8Db1 : DB :=
  { customers := [], products := [{ id := 1, name := "Producto P", stock := 5 }],
    sales := [], saleItems := [], movements := [], credits := [] }

/-- A non-negative initial state for the stock invariant. -/
def c9Db : DB :=
  { customers := [], products := [{ id := 1, name := "Producto P", stock := 4 }],
    sales := [], saleItems := [], movements := [], credits := [] }

/-- A request with pairwise-distinct line products against `c9Db`. -/
def c9Req : SaleRequest :=
  { customerId := none, customerName := none,
    items := [{ productId := 1, quantity := 2, unitPrice := 100 }],
    paymentMethod := "cash" }

/-- The sale row `c9Req` produces. -/
def c9Sale : Sale := mkSale c9Req "INV-0009" 1

/-- The state produced by accepting `c9Req` against `c9Db`. -/
def c9Db1 : DB :=
  { customers := [], products := [{ id := 1, name := "Producto P", stock := 2 }],
    sales := [c9Sale],
    saleItems := [{ saleId := 1, productId := 1, quantity := 2, unitPrice := 100,
                    totalPrice := ((2 : Int) : Rat) * 100 }],
    movements := [{ productId := 1, type := "SALE", quantity := -2,
                    previousStock := some 4, newStock := some 2,
                    reference := "Sale INV-0009" }],
    credits := [] }

/-- A state with all stocks non-negative (stock 10). -/
def c9CexDb : DB :=
  { customers := [], products := [{ id := 1, name := "Producto P", stock := 10 }],
    sales := [], saleItems := [], movements := [], credits := [] }

/-- Two lines for the same product, each passing the per-line check. -/
def c9CexReq : SaleRequest :=
  { customerId := none, customerName := none,
    items := [{ productId := 1, quantity := 6, unitPrice := 100 },
              { productId := 1, quantity := 6, unitPrice := 100 }],
    paymentMethod := "cash" }

/-- A pending sale of 2 units whose product now has stock 3 (pre-sale 5). -/
def c10Db : DB :=
  { customers := [], products := [{ id := 1, name := "Producto P", stock := 3 }],
    sales := [{ id := 1, invoiceNumber := "INV-0010", customerId := none,
                customerName := "Cliente General", subtotal := 2000, taxAmount := 380,
                totalAmount := 2380, paymentMethod := "cash", status := "PENDING" }],
    saleItems := [{ saleId := 1, productId := 1, quantity := 2, unitPrice := 1000,
                    totalPrice := 2000 }],
    movements := [], credits := [] }

/-- The state produced by cancelling the sale of `c10Db`. -/
def c10Db1 : DB :=
  { customers := [], products := [{ id := 1, name := "Producto P", stock := 5 }],
    sales := [{ id := 1, invoiceNumber := "INV-0010", customerId := none,
                customerName := "Cliente General", subtotal := 2000, taxAmount := 380,
                totalAmount := 2380, paymentMethod := "cash", status := "cancelled" }],
    saleItems := [{ saleId := 1, productId := 1, quantity := 2, unitPrice := 1000,
                    totalPrice := 2000 }],
    movements := [{ productId := 1, type := "SALE_CANCELLATION", quantity := 2,
                    previousStock := none, newStock := none,
                    reference := "Sale INV-0010 cancelled" }],
    credits := [] }

/-- The state produced by then deleting the cancelled sale of `c10Db1`. -/
def c10Db2 : DB :=
  { customers := [], products := [{ id := 1, name := "Producto P", stock := 7 }],
    sales := [], saleItems := [],
    movements := [{ productId := 1, type := "SALE_CANCELLATION", quantity := 2,
                    previousStock := none, newStock := none,
                    reference := "Sale INV-0010 cancelled" }],
    credits := [] }

/-! ### Stock-shift lemmas -/

theorem shiftStock_zero (ps : List Product) : shiftStock (fun _ => 0) ps = ps := by
  simp [shiftStock]

theorem shiftStock_congr {g h : Nat → Int} (hg : ∀ i, g i = h i) (ps : List Product) :
    shiftStock g ps = shiftStock h ps := by
  induction ps with
  | nil => rfl
  | cons p rest ih =>
    simp only [shiftStock, List.map_cons] at ih ⊢
    rw [hg p.id]
    exact congrArg _ ih

theorem shiftStock_shiftStock (g h : Nat → Int) (ps : List Product) :
    shiftStock h (shiftStock g ps) = shiftStock (fun i => g i + h i) ps := by
  induction ps with
  | nil => rfl
  | cons p rest ih =>
    simp only [shiftStock, List.map_cons] at ih ⊢
    rw [Int.add_assoc]
    exact congrArg _ ih

theorem bumpStock_eq_shiftStock (ps : List Product) (pid : Nat) (d : Int) :
    bumpStock ps pid d = shiftStock (fun i => if i = pid then d else 0) ps := by
  induction ps with
  | nil => rfl
  | cons p rest ih =>
    obtain ⟨i, n, s⟩ := p
    simp only [bumpStock, shiftStock, List.map_cons] at ih ⊢
    rw [List.cons.injEq]
    refine ⟨?_, ih⟩
    by_cases h : i = pid <;> simp [h]

theorem stockOf_shiftStock (g : Nat → Int) (ps : List Product) (pid : Nat) :
    stockOf (shiftStock g ps) pid = (stockOf ps pid).map fun s => s + g pid := by
  induction ps with
  | nil => rfl
  | cons p rest ih =>
    by_cases h : p.id = pid
    · simp [stockOf, findProduct, shiftStock, List.find?_cons, h]
    · have hb : (p.id == pid) = false := by simpa using h
      simp only [stockOf, findProduct, shiftStock, List.map_cons, List.find?_cons, hb] at ih ⊢
      exact ih

theorem shiftStock_ids (g : Nat → Int) (ps : List Product) :
    (shiftStock g ps).map (fun p => p.id) = ps.map fun p => p.id := by
  simp [shiftStock, List.map_map]

theorem mem_shiftStock {g : Nat → Int} {ps : List Product} {p' : Product} :
    p' ∈ shiftStock g ps ↔ ∃ p ∈ ps, p' = { p with stock := p.stock + g p.id } := by
  simp only [shiftStock, List.mem_map]
  constructor
  · rintro ⟨p, hp, rfl⟩; exact ⟨p, hp, rfl⟩
  · rintro ⟨p, hp, rfl⟩; exact ⟨p, hp, rfl⟩

/-! ### Quantity-sum lemmas -/

theorem qtySumReq_nil (pid : Nat) : qtySumReq [] pid = 0 := rfl

theorem qtySumReq_cons (it : LineItem) (rest : List LineItem) (pid : Nat) :
    qtySumReq (it :: rest) pid =
      (if it.productId = pid then it.quantity else 0) + qtySumReq rest pid := by
  by_cases h : it.productId = pid <;> simp [qtySumReq, List.filter_cons, h]

theorem qtySumItems_nil (pid : Nat) : qtySumItems [] pid = 0 := rfl

theorem qtySumItems_cons (si : SaleItem) (rest : List SaleItem) (pid : Nat) :
    qtySumItems (si :: rest) pid =
      (if si.productId = pid then si.quantity else 0) + qtySumItems rest pid := by
  by_cases h : si.productId = pid <;> simp [qtySumItems, List.filter_cons, h]

theorem qtySumReq_eq_zero {items : List LineItem} {pid : Nat}
    (h : ∀ it ∈ items, it.productId ≠ pid) : qtySumReq items pid = 0 := by
  induction items with
  | nil => rfl
  | cons it rest ih =>
    rw [qtySumReq_cons, if_neg (h it (List.mem_cons_self it rest)),
      ih fun x hx => h x (List.mem_cons_of_mem it hx)]
    rfl

theorem qtySumReq_ne_zero_mem {items : List LineItem} {pid : Nat}
    (h : qtySumReq items pid ≠ 0) : ∃ it ∈ items, it.productId = pid := by
  by_contra hc
  push_neg at hc
  exact h (qtySumReq_eq_zero hc)

theorem qtySumReq_of_nodup {items : List LineItem}
    (hn : (items.map fun it => it.productId).Nodup)
    {it : LineItem} (hit : it ∈ items) : qtySumReq items it.productId = it.quantity := by
  induction items with
  | nil => cases hit
  | cons hd rest ih =>
    rw [List.map_cons, List.nodup_cons] at hn
    rcases List.mem_cons.mp hit with rfl | hmem
    · rw [qtySumReq_cons, if_pos rfl]
      rw [qtySumReq_eq_zero fun x hx e => hn.1 (by
        rw [← e]; exact List.mem_map_of_mem (fun y => y.productId) hx)]
      exact Int.add_zero _
    · have hne : hd.productId ≠ it.productId := fun e => hn.1 (by
        rw [e]; exact List.mem_map_of_mem (fun y => y.productId) hmem)
      rw [qtySumReq_cons, if_neg hne, ih hn.2 hmem]
      exact Int.zero_add _

theorem qtySumItems_nonneg {sis : List SaleItem} {pid : Nat}
    (h : ∀ si ∈ sis, 0 ≤ si.quantity) : 0 ≤ qtySumItems sis pid := by
  induction sis with
  | nil => exact le_refl 0
  | cons si rest ih =>
    rw [qtySumItems_cons]
    have h1 : 0 ≤ if si.productId = pid then si.quantity else 0 := by
      split
      · exact h si (List.mem_cons_self si rest)
      · exact le_refl 0
    exact Int.add_nonneg h1 (ih fun x hx => h x (List.mem_cons_of_mem si hx))

/-! ### Lookup lemmas -/

theorem findProduct_eq_of_nodup {ps : List Product}
    (hn : (ps.map fun p => p.id).Nodup) {p : Product} (hp : p ∈ ps) :
    findProduct ps p.id = some p := by
  induction ps with
  | nil => cases hp
  | cons hd rest ih =>
    rw [List.map_cons, List.nodup_cons] at hn
    rcases List.mem_cons.mp hp with rfl | hmem
    · simp [findProduct, List.find?_cons]
    · have hne : hd.id ≠ p.id := fun e => hn.1 (by
        rw [e]; exact List.mem_map_of_mem (fun y => y.id) hmem)
      rw [findProduct, List.find?_cons]
      rw [show (hd.id == p.id) = false by simpa using hne]
      exact ih hn.2 hmem

theorem findProduct_isSome_bumpStock (ps : List Product) (pid : Nat) (d : Int) (pid' : Nat) :
    (findProduct (bumpStock ps pid d) pid').isSome = (findProduct ps pid').isSome := by
  have h1 : (stockOf (bumpStock ps pid d) pid').isSome = (stockOf ps pid').isSome := by
    rw [bumpStock_eq_shiftStock, stockOf_shiftStock, Option.isSome_map']
  simpa [stockOf, Option.isSome_map'] using h1

/-! ### Validation and pre-check lemmas -/

theorem validRequest_quantities {req : SaleRequest} (h : validRequest req = true) :
    ∀ it ∈ req.items, 1 ≤ it.quantity := by
  intro it hit
  have h2 := (Bool.and_eq_true _ _).mp ((Bool.and_eq_true _ _).mp h).1
  have h3 := (List.all_eq_true.mp h2.2) it hit
  exact of_decide_eq_true ((Bool.and_eq_true _ _).mp h3).1

theorem stockError_none_iff (ps : List Product) (items : List LineItem) :
    stockError ps items = none ↔
      ∀ it ∈ items, ∃ p, findProduct ps it.productId = some p ∧ it.quantity ≤ p.stock := by
  induction items with
  | nil => simp [stockError]
  | cons it rest ih =>
    cases hf : findProduct ps it.productId with
    | none =>
      simp only [stockError, hf]
      constructor
      · intro h; cases h
      · intro h
        rcases h it (List.mem_cons_self it rest) with ⟨p, hp, -⟩
        rw [hf] at hp; cases hp
    | some p =>
      by_cases hs : p.stock < it.quantity
      · simp only [stockError, hf, if_pos hs]
        constructor
        · intro h; cases h
        · intro h
          rcases h it (List.mem_cons_self it rest) with ⟨q, hq, hle⟩
          rw [hf] at hq
          cases hq
          exact absurd hs (Int.not_lt.mpr hle)
      · simp only [stockError, hf, if_neg hs]
        rw [ih]
        constructor
        · intro h x hx
          rcases List.mem_cons.mp hx with rfl | hmem
          · exact ⟨p, hf, Int.not_lt.mp hs⟩
          · exact h x hmem
        · intro h x hx
          exact h x (List.mem_cons_of_mem it hx)

theorem stockError_insufficient {ps : List Product} {items : List LineItem}
    (hall : ∀ it ∈ items, (findProduct ps it.productId).isSome = true)
    (hbad : ∃ it ∈ items, ∃ p, findProduct ps it.productId = some p ∧ p.stock < it.quantity) :
    ∃ it ∈ items, ∃ p, findProduct ps it.productId = some p ∧ p.stock < it.quantity ∧
      stockError ps items = some (SaleError.insufficientStock p.name p.stock) := by
  induction items with
  | nil => rcases hbad with ⟨it, hit, -⟩; cases hit
  | cons hd rest ih =>
    rcases Option.isSome_iff_exists.mp (hall hd (List.mem_cons_self hd rest)) with ⟨p, hp⟩
    by_cases hs : p.stock < hd.quantity
    · refine ⟨hd, List.mem_cons_self hd rest, p, hp, hs, ?_⟩
      simp [stockError, hp, hs]
    · rcases hbad with ⟨it, hit, q, hq, hlt⟩
      rcases List.mem_cons.mp hit with rfl | hmem
      · rw [hp] at hq; cases hq; exact absurd hlt hs
      · rcases ih (fun x hx => hall x (List.mem_cons_of_mem hd hx)) ⟨it, hmem, q, hq, hlt⟩
          with ⟨it', h1, p', h2, h3, h4⟩
        refine ⟨it', List.mem_cons_of_mem hd h1, p', h2, h3, ?_⟩
        simp [stockError, hp, hs, h4]

/-! ### Transaction-body lemmas -/

theorem movsRecord_length (inv : String) :
    ∀ (items : List LineItem) (ps : List Product) (ms : List InventoryMovement),
      movsRecord inv ps items ms → ms.length = items.length := by
  intro items
  induction items with
  | nil =>
    intro ps ms h
    cases ms with
    | nil => rfl
    | cons m ms => cases h
  | cons it rest ih =>
    intro ps ms h
    cases ms with
    | nil => cases h
    | cons m ms =>
      have := ih (bumpStock ps it.productId (-it.quantity)) ms h.2.2.2.2.2
      simp [this]

theorem forall₂_mem_right {α β : Type} {R : α → β → Prop} :
    ∀ {l₁ : List α} {l₂ : List β}, List.Forall₂ R l₁ l₂ →
      ∀ b ∈ l₂, ∃ a ∈ l₁, R a b := by
  intro l₁ l₂ h
  induction h with
  | nil => intro b hb; cases hb
  | cons hR _ ih =>
    intro b hb
    rcases List.mem_cons.mp hb with rfl | hmem
    · exact ⟨_, List.mem_cons_self _ _, hR⟩
    · rcases ih b hmem with ⟨a, ha, hab⟩
      exact ⟨a, List.mem_cons_of_mem _ ha, hab⟩

theorem applySaleItems_spec (sid : Nat) (inv : String) :
    ∀ (items : List LineItem) (db db' : DB),
      applySaleItems sid inv db items = some db' →
      db'.products = shiftStock (fun i => - qtySumReq items i) db.products ∧
      db'.customers = db.customers ∧
      db'.sales = db.sales ∧
      db'.credits = db.credits ∧
      (∃ sis, db'.saleItems = db.saleItems ++ sis ∧
        List.Forall₂ (saleItemMatches sid) items sis) ∧
      (∃ ms, db'.movements = db.movements ++ ms ∧ movsRecord inv db.products items ms) := by
  intro items
  induction items with
  | nil =>
    intro db db' h
    cases h
    refine ⟨?_, rfl, rfl, rfl, ⟨[], by simp, List.Forall₂.nil⟩, ⟨[], by simp, trivial⟩⟩
    rw [show (fun i => - qtySumReq [] i) = fun _ : Nat => (0 : Int) from
      funext fun i => by rw [qtySumReq_nil]; exact Int.neg_zero]
    rw [shiftStock_zero]
  | cons it rest ih =>
    intro db db' h
    rw [applySaleItems] at h
    cases hf : findProduct db.products it.productId with
    | none => rw [hf] at h; cases h
    | some p =>
      rw [hf] at h
      rcases ih _ _ h with ⟨hprod, hcust, hsales, hcred, ⟨sis, hsis, hsim⟩, ⟨ms, hms, hmr⟩⟩
      refine ⟨?_, hcust, hsales, hcred, ?_, ?_⟩
      · rw [hprod]
        show shiftStock _ (bumpStock db.products it.productId (-it.quantity)) = _
        rw [bumpStock_eq_shiftStock, shiftStock_shiftStock]
        refine shiftStock_congr (fun i => ?_) _
        rw [qtySumReq_cons]
        by_cases hip : it.productId = i
        · rw [if_pos hip, if_pos hip.symm]; omega
        · rw [if_neg hip, if_neg fun e => hip e.symm]; omega
      · refine ⟨({ saleId := sid
                   productId := it.productId
                   quantity := it.quantity
                   unitPrice := it.unitPrice
                   totalPrice := (it.quantity : Rat) * it.unitPrice } : SaleItem) :: sis,
            ?_, ?_⟩
        · rw [hsis]; simp
        · exact List.Forall₂.cons ⟨rfl, rfl, rfl, rfl, rfl⟩ hsim
      · refine ⟨({ productId := it.productId
                   type := "SALE"
                   quantity := -it.quantity
                   previousStock := some p.stock
                   newStock := some (p.stock - it.quantity)
                   reference := "Sale " ++ inv } : InventoryMovement) :: ms, ?_, ?_⟩
        · rw [hms]; simp
        · exact ⟨rfl, rfl, rfl, ⟨p, hf, rfl, rfl⟩, rfl, hmr⟩

theorem restoreItems_spec (inv : String) :
    ∀ (sis : List SaleItem) (db db' : DB),
      restoreItems inv db sis = some db' →
      db'.products = shiftStock (fun i => qtySumItems sis i) db.products ∧
      db'.customers = db.customers ∧
      db'.sales = db.sales ∧
      db'.saleItems = db.saleItems ∧
      db'.credits = db.credits ∧
      ∃ ms, db'.movements = db.movements ++ ms ∧
        List.Forall₂ (cancelMovMatches inv) sis ms := by
  intro sis
  induction sis with
  | nil =>
    intro db db' h
    cases h
    refine ⟨?_, rfl, rfl, rfl, rfl, ⟨[], by simp, List.Forall₂.nil⟩⟩
    rw [show (fun i => qtySumItems [] i) = fun _ : Nat => (0 : Int) from
      funext fun i => qtySumItems_nil i]
    rw [shiftStock_zero]
  | cons si rest ih =>
    intro db db' h
    rw [restoreItems] at h
    cases hf : findProduct db.products si.productId with
    | none => rw [hf] at h; cases h
    | some p =>
      rw [hf] at h
      rcases ih _ _ h with ⟨hprod, hcust, hsales, hsi, hcred, ⟨ms, hms, hmr⟩⟩
      refine ⟨?_, hcust, hsales, hsi, hcred, ?_⟩
      · rw [hprod]
        show shiftStock _ (bumpStock db.products si.productId si.quantity) = _
        rw [bumpStock_eq_shiftStock, shiftStock_shiftStock]
        refine shiftStock_congr (fun i => ?_) _
        rw [qtySumItems_cons]
        by_cases hip : si.productId = i
        · rw [if_pos hip, if_pos hip.symm]
        · rw [if_neg hip, if_neg fun e => hip e.symm]
      · refine ⟨({ productId := si.productId
                   type := "SALE_CANCELLATION"
                   quantity := si.quantity
                   previousStock := none
                   newStock := none
                   reference := "Sale " ++ inv ++ " cancelled" } : InventoryMovement) :: ms,
            ?_, ?_⟩
        · rw [hms]; simp
        · exact List.Forall₂.cons ⟨rfl, rfl, rfl, rfl, rfl, rfl⟩ hmr

theorem restoreStockOnly_spec :
    ∀ (sis : List SaleItem) (db db' : DB),
      restoreStockOnly db sis = some db' →
      db'.products = shiftStock (fun i => qtySumItems sis i) db.products ∧
      db'.customers = db.customers ∧
      db'.sales = db.sales ∧
      db'.saleItems = db.saleItems ∧
      db'.credits = db.credits ∧
      db'.movements = db.movements := by
  intro sis
  induction sis with
  | nil =>
    intro db db' h
    cases h
    refine ⟨?_, rfl, rfl, rfl, rfl, rfl⟩
    rw [show (fun i => qtySumItems [] i) = fun _ : Nat => (0 : Int) from
      funext fun i => qtySumItems_nil i]
    rw [shiftStock_zero]
  | cons si rest ih =>
    intro db db' h
    rw [restoreStockOnly] at h
    cases hf : findProduct db.products si.productId with
    | none => rw [hf] at h; cases h
    | some p =>
      rw [hf] at h
      rcases ih _ _ h with ⟨hprod, hcust, hsales, hsi, hcred, hmov⟩
      refine ⟨?_, hcust, hsales, hsi, hcred, hmov⟩
      rw [hprod]
      show shiftStock _ (bumpStock db.products si.productId si.quantity) = _
      rw [bumpStock_eq_shiftStock, shiftStock_shiftStock]
      refine shiftStock_congr (fun i => ?_) _
      rw [qtySumItems_cons]
      by_cases hip : si.productId = i
      · rw [if_pos hip, if_pos hip.symm]
      · rw [if_neg hip, if_neg fun e => hip e.symm]

theorem restoreItems_isSome (inv : String) :
    ∀ (sis : List SaleItem) (db : DB),
      (∀ si ∈ sis, (findProduct db.products si.productId).isSome = true) →
      ∃ db', restoreItems inv db sis = some db' := by
  intro sis
  induction sis with
  | nil => intro db _; exact ⟨db, rfl⟩
  | cons si rest ih =>
    intro db hall
    rcases Option.isSome_iff_exists.mp (hall si (List.mem_cons_self si rest)) with ⟨p, hp⟩
    have hstep := ih
      { db with
        products := bumpStock db.products si.productId si.quantity
        movements := db.movements ++
          [({ productId := si.productId
              type := "SALE_CANCELLATION"
              quantity := si.quantity
              previousStock := none
              newStock := none
              reference := "Sale " ++ inv ++ " cancelled" } : InventoryMovement)] }
      (fun x hx => by
        show (findProduct (bumpStock db.products si.productId si.quantity) x.productId).isSome = true
        rw [findProduct_isSome_bumpStock]
        exact hall x (List.mem_cons_of_mem si hx))
    rcases hstep with ⟨db', hdb'⟩
    refine ⟨db', ?_⟩
    rw [restoreItems, hp]
    exact hdb'

theorem restoreStockOnly_isSome :
    ∀ (sis : List SaleItem) (db : DB),
      (∀ si ∈ sis, (findProduct db.products si.productId).isSome = true) →
      ∃ db', restoreStockOnly db sis = some db' := by
  intro sis
  induction sis with
  | nil => intro db _; exact ⟨db, rfl⟩
  | cons si rest ih =>
    intro db hall
    rcases Option.isSome_iff_exists.mp (hall si (List.mem_cons_self si rest)) with ⟨p, hp⟩
    have hstep := ih
      { db with products := bumpStock db.products si.productId si.quantity }
      (fun x hx => by
        show (findProduct (bumpStock db.products si.productId si.quantity) x.productId).isSome = true
        rw [findProduct_isSome_bumpStock]
        exact hall x (List.mem_cons_of_mem si hx))
    rcases hstep with ⟨db', hdb'⟩
    refine ⟨db', ?_⟩
    rw [restoreStockOnly, hp]
    exact hdb'

/-! ### Handler anatomy lemmas -/

theorem addCredit_unchanged (db : DB) (req : SaleRequest) (t : Rat) (now : Int) (inv : String) :
    (addCredit db req t now inv).products = db.products ∧
    (addCredit db req t now inv).customers = db.customers ∧
    (addCredit db req t now inv).sales = db.sales ∧
    (addCredit db req t now inv).saleItems = db.saleItems ∧
    (addCredit db req t now inv).movements = db.movements := by
  rw [addCredit]
  by_cases h : req.paymentMethod = "credit"
  · rw [if_pos h]
    cases req.customerId <;> exact ⟨rfl, rfl, rfl, rfl, rfl⟩
  · rw [if_neg h]
    exact ⟨rfl, rfl, rfl, rfl, rfl⟩

theorem addCredit_credits_pos (db : DB) (req : SaleRequest) (t : Rat) (now : Int) (inv : String)
    {cid : Nat} (hcid : req.customerId = some cid) (hpm : req.paymentMethod = "credit") :
    (addCredit db req t now inv).credits = db.credits ++ [mkSaleCredit cid t now inv] := by
  rw [addCredit, if_pos hpm, hcid]

theorem addCredit_credits_neg (db : DB) (req : SaleRequest) (t : Rat) (now : Int) (inv : String)
    (h : req.paymentMethod ≠ "credit" ∨ req.customerId = none) :
    (addCredit db req t now inv).credits = db.credits := by
  rw [addCredit]
  rcases h with h | h
  · rw [if_neg h]
  · by_cases hpm : req.paymentMethod = "credit"
    · rw [if_pos hpm, h]
    · rw [if_neg hpm]

theorem createSale_ok {db : DB} {req : SaleRequest} {inv : String} {now : Int} {sid : Nat}
    {db' : DB} {sale : Sale}
    (h : createSale db req inv now sid = Except.ok (db', sale)) :
    validRequest req = true ∧ customerOk db req.customerId = true ∧
    stockError db.products req.items = none ∧ sale = mkSale req inv sid ∧
    ∃ db2, applySaleItems sid inv
        { db with sales := db.sales ++ [mkSale req inv sid] } req.items = some db2 ∧
      db' = addCredit db2 req (mkSale req inv sid).totalAmount now inv := by
  rw [createSale] at h
  split at h
  · cases h
  next hval =>
    split at h
    · cases h
    next hcust =>
      split at h
      · cases h
      next hse =>
        split at h
        · cases h
        next db2 happ =>
          rw [Except.ok.injEq, Prod.mk.injEq] at h
          refine ⟨by simpa using hval, by simpa using hcust, hse, h.2.symm, db2, happ, ?_⟩
          rw [← h.1]

theorem findSale_set_status (ss : List Sale) (sid : Nat) (st : String) :
    findSale (ss.map fun s => if s.id = sid then { s with status := st } else s) sid =
      (findSale ss sid).map fun s => { s with status := st } := by
  induction ss with
  | nil => rfl
  | cons s rest ih =>
    by_cases h : s.id = sid
    · have hc : (({ s with status := st } : Sale).id == sid) = true := by simpa using h
      have hc1 : (s.id == sid) = true := by simpa using h
      simp only [findSale, List.map_cons, if_pos h, List.find?_cons, hc, hc1]
      rfl
    · have hc : (s.id == sid) = false := by simpa using h
      simp only [findSale, List.map_cons, if_neg h, List.find?_cons, hc] at ih ⊢
      exact ih

theorem updateSaleStatus_ok {db : DB} {sid : Nat} {st : String} {db' : DB}
    (h : updateSaleStatus db sid st = Except.ok db') :
    validStatus st = true ∧
    ∃ sale, findSale db.sales sid = some sale ∧
      ∃ db1,
        ((st = "cancelled" ∧ sale.status ≠ "cancelled") →
          restoreItems sale.invoiceNumber db (saleItemsOf db sid) = some db1) ∧
        (¬(st = "cancelled" ∧ sale.status ≠ "cancelled") → db1 = db) ∧
        db' = { db1 with
          sales := db1.sales.map fun s => if s.id = sid then { s with status := st } else s } := by
  rw [updateSaleStatus] at h
  split at h
  · cases h
  next hval =>
    split at h
    · cases h
    next sale hfind =>
      by_cases hc : st = "cancelled" ∧ sale.status ≠ "cancelled"
      · rw [if_pos hc] at h
        cases hrest : restoreItems sale.invoiceNumber db (saleItemsOf db sid) with
        | none => rw [hrest] at h; cases h
        | some db1 =>
          rw [hrest] at h
          rw [Except.ok.injEq] at h
          exact ⟨by simpa using hval, sale, hfind, db1, fun _ => hrest,
            fun hnc => absurd hc hnc, h.symm⟩
      · rw [if_neg hc] at h
        rw [Except.ok.injEq] at h
        exact ⟨by simpa using hval, sale, hfind, db, fun hcc => absurd hcc hc,
          fun _ => rfl, h.symm⟩

theorem deleteSale_ok {db : DB} {sid : Nat} {db' : DB}
    (h : deleteSale db sid = Except.ok db') :
    ∃ sale, findSale db.sales sid = some sale ∧ sale.status ≠ "completed" ∧
      ∃ db1, restoreStockOnly db (saleItemsOf db sid) = some db1 ∧
        db' = { db1 with
          saleItems := db1.saleItems.filter fun si => !(si.saleId == sid)
          sales := db1.sales.filter fun s => !(s.id == sid) } := by
  rw [deleteSale] at h
  split at h
  · cases h
  next sale hfind =>
    split at h
    · cases h
    next hstat =>
      split at h
      · cases h
      next db1 hrest =>
        rw [Except.ok.injEq] at h
        exact ⟨sale, hfind, hstat, db1, hrest, h.symm⟩

/-! ### Combined effect of a successful sale creation -/

theorem createSale_effects {db : DB} {req : SaleRequest} {inv : String} {now : Int} {sid : Nat}
    {db' : DB} {sale : Sale}
    (h : createSale db req inv now sid = Except.ok (db', sale)) :
    db'.products = shiftStock (fun i => - qtySumReq req.items i) db.products ∧
    db'.customers = db.customers ∧
    db'.sales = db.sales ++ [mkSale req inv sid] ∧
    (∃ sis, db'.saleItems = db.saleItems ++ sis ∧
      List.Forall₂ (saleItemMatches sid) req.items sis) ∧
    (∃ ms, db'.movements = db.movements ++ ms ∧ movsRecord inv db.products req.items ms) ∧
    (∀ cid, req.customerId = some cid → req.paymentMethod = "credit" →
      db'.credits = db.credits ++ [mkSaleCredit cid (mkSale req inv sid).totalAmount now inv]) ∧
    ((req.paymentMethod ≠ "credit" ∨ req.customerId = none) → db'.credits = db.credits) := by
  obtain ⟨hval, hcust, hse, hsale, db2, happ, hdb'⟩ := createSale_ok h
  obtain ⟨hp, hc, hs, hcr, ⟨sis, hsis, hsim⟩, ⟨ms, hms, hmr⟩⟩ :=
    applySaleItems_spec sid inv req.items _ db2 happ
  obtain ⟨hap, hac, has, hasi, ham⟩ :=
    addCredit_unchanged db2 req (mkSale req inv sid).totalAmount now inv
  subst hdb'
  refine ⟨?_, ?_, ?_, ⟨sis, ?_, hsim⟩, ⟨ms, ?_, hmr⟩, ?_, ?_⟩
  · rw [hap, hp]
  · rw [hac, hc]
  · rw [has, hs]
  · rw [hasi, hsis]
  · rw [ham, hms]
  · intro cid hcid hpm
    rw [addCredit_credits_pos db2 req _ now inv hcid hpm, hcr]
  · intro hneg
    rw [addCredit_credits_neg db2 req _ now inv hneg, hcr]

/-! ### Preservation of the stock invariant -/

theorem salesStep_StockInv {db db' : DB} (hstep : SalesStep db db') (hinv : StockInv db) :
    StockInv db' := by
  obtain ⟨hnodup, hstock, hqty⟩ := hinv
  cases hstep with
  | create req inv now sid sale hnd h =>
    obtain ⟨hval, hcust, hse, -, -⟩ := createSale_ok h
    obtain ⟨hp, -, -, ⟨sis, hsis, hsim⟩, -, -, -⟩ := createSale_effects h
    refine ⟨?_, ?_, ?_⟩
    · rw [hp, shiftStock_ids]; exact hnodup
    · intro p' hp'
      rw [hp] at hp'
      rcases mem_shiftStock.mp hp' with ⟨p, hpmem, rfl⟩
      show 0 ≤ p.stock + -(qtySumReq req.items p.id)
      by_cases h0 : qtySumReq req.items p.id = 0
      · have := hstock p hpmem; omega
      · rcases qtySumReq_ne_zero_mem h0 with ⟨it, hit, hpid⟩
        rcases (stockError_none_iff db.products req.items).mp hse it hit with ⟨q, hq, hle⟩
        have hfind : findProduct db.products p.id = some p :=
          findProduct_eq_of_nodup hnodup hpmem
        rw [hpid, hfind] at hq
        cases hq
        have hqs : qtySumReq req.items p.id = it.quantity := by
          rw [← hpid]; exact qtySumReq_of_nodup hnd hit
        rw [hqs]
        omega
    · intro si hsi'
      rw [hsis] at hsi'
      rcases List.mem_append.mp hsi' with hold | hnew
      · exact hqty si hold
      · rcases forall₂_mem_right hsim si hnew with ⟨it, hit, hm⟩
        have h1 := validRequest_quantities hval it hit
        rw [hm.2.2.1]
        omega
  | setStatus sid st h =>
    obtain ⟨hvs, sale, hfind, db1, hres, hnres, hdb'⟩ := updateSaleStatus_ok h
    by_cases hc : st = "cancelled" ∧ sale.status ≠ "cancelled"
    · obtain ⟨hp1, -, -, hsi1, -, -⟩ :=
        restoreItems_spec sale.invoiceNumber (saleItemsOf db sid) db db1 (hres hc)
      subst hdb'
      refine ⟨?_, ?_, ?_⟩
      · show (db1.products.map fun p => p.id).Nodup
        rw [hp1, shiftStock_ids]
        exact hnodup
      · intro p' hp'
        rw [show ({ db1 with
            sales := db1.sales.map fun s =>
              if s.id = sid then { s with status := st } else s } : DB).products = db1.products
            from rfl, hp1] at hp'
        rcases mem_shiftStock.mp hp' with ⟨p, hpmem, rfl⟩
        show 0 ≤ p.stock + qtySumItems (saleItemsOf db sid) p.id
        have h1 := hstock p hpmem
        have h2 : 0 ≤ qtySumItems (saleItemsOf db sid) p.id := by
          refine qtySumItems_nonneg fun si hsi => ?_
          exact hqty si (List.mem_of_mem_filter hsi)
        omega
      · intro si hsi'
        have : si ∈ db1.saleItems := hsi'
        rw [hsi1] at this
        exact hqty si this
    · have hdb1 : db1 = db := hnres hc
      subst hdb1
      subst hdb'
      exact ⟨hnodup, hstock, hqty⟩
  | remove sid h =>
    obtain ⟨sale, hfind, hstat, db1, hrest, hdb'⟩ := deleteSale_ok h
    obtain ⟨hp1, -, -, hsi1, -, -⟩ :=
      restoreStockOnly_spec (saleItemsOf db sid) db db1 hrest
    subst hdb'
    refine ⟨?_, ?_, ?_⟩
    · show (db1.products.map fun p => p.id).Nodup
      rw [hp1, shiftStock_ids]
      exact hnodup
    · intro p' hp'
      rw [show ({ db1 with
          saleItems := db1.saleItems.filter fun si => !(si.saleId == sid)
          sales := db1.sales.filter fun s => !(s.id == sid) } : DB).products = db1.products
          from rfl, hp1] at hp'
      rcases mem_shiftStock.mp hp' with ⟨p, hpmem, rfl⟩
      show 0 ≤ p.stock + qtySumItems (saleItemsOf db sid) p.id
      have h1 := hstock p hpmem
      have h2 : 0 ≤ qtySumItems (saleItemsOf db sid) p.id := by
        refine qtySumItems_nonneg fun si hsi => ?_
        exact hqty si (List.mem_of_mem_filter hsi)
      omega
    · intro si hsi'
      have : si ∈ db1.saleItems := List.mem_of_mem_filter hsi'
      rw [hsi1] at this
      exact hqty si this

theorem stockInv_reach {db db' : DB} (hinv : StockInv db)
    (hreach : Relation.ReflTransGen SalesStep db db') : StockInv db' := by
  induction hreach with
  | refl => exact hinv
  | tail hsteps hstep ih => exact salesStep_StockInv hstep ih

/-! ### Subtotal as a sum -/

theorem foldl_add_rat (f : LineItem → Rat) :
    ∀ (items : List LineItem) (a : Rat),
      items.foldl (fun s it => s + f it) a = a + (items.map f).sum := by
  intro items
  induction items with
  | nil => intro a; simp
  | cons it rest ih => intro a; simp [ih, add_assoc]

theorem itemsSubtotal_eq_sum (items : List LineItem) :
    itemsSubtotal items = (items.map fun it => (it.quantity : Rat) * it.unitPrice).sum := by
  rw [itemsSubtotal, foldl_add_rat]
  exact zero_add _

/-! ### The claims -/

/-- Claim C1: every sale accepted by POST /sales persists
`subtotal = Σ quantity_i × unitPrice_i`, `taxAmount = subtotal × 0.19` and
`totalAmount = subtotal + taxAmount`, the sale row is persisted, and a
non-credit sale (such as a cash sale) is stored with status PAID.  The
concrete qty-2 × 25000 cash instance (subtotal 50000, tax 9500, total 59500,
status PAID) is `C1_sale_totals_witness`. -/
theorem C1_sale_totals {db : DB} {req : SaleRequest} {inv : String} {now : Int} {sid : Nat}
    {db' : DB} {sale : Sale}
    (h : createSale db req inv now sid = Except.ok (db', sale)) :
    sale.subtotal = (req.items.map fun it => (it.quantity : Rat) * it.unitPrice).sum ∧
    sale.taxAmount = sale.subtotal * (19 / 100) ∧
    sale.totalAmount = sale.subtotal + sale.taxAmount ∧
    sale ∈ db'.sales ∧
    (req.paymentMethod ≠ "credit" → sale.status = "PAID") := by
  obtain ⟨-, -, -, hsale, -⟩ := createSale_ok h
  obtain ⟨-, -, hsales, -, -, -, -⟩ := createSale_effects h
  subst hsale
  refine ⟨itemsSubtotal_eq_sum req.items, rfl, rfl, ?_, fun hpm => ?_⟩
  · rw [hsales]
    simp [mkSale]
  · show (if req.paymentMethod = "credit" then "PENDING" else "PAID") = "PAID"
    rw [if_neg hpm]

/-- Witness for C1: the cash sale of 2 units at 25000 yields subtotal 50000,
taxAmount 9500, totalAmount 59500 and status PAID. -/
theorem C1_sale_totals_witness :
    ((createSale c1Db c1Req "INV-0001" 0 1).toOption.map fun r =>
        (r.2.subtotal, r.2.taxAmount, r.2.totalAmount, r.2.status)) =
      some (50000, 9500, 59500, "PAID") := by
  have hsome : (createSale c1Db c1Req "INV-0001" 0 1).toOption.isSome = true := rfl
  cases hc : createSale c1Db c1Req "INV-0001" 0 1 with
  | error e => rw [hc] at hsome; simp [Except.toOption] at hsome
  | ok r =>
    obtain ⟨db', sale⟩ := r
    obtain ⟨h1, h2, h3, -, h5⟩ := C1_sale_totals hc
    have hsub : sale.subtotal = 50000 := by
      rw [h1]
      show ((c1Req.items.map fun it => (it.quantity : Rat) * it.unitPrice)).sum = 50000
      norm_num [c1Req]
    have htax : sale.taxAmount = 9500 := by rw [h2, hsub]; norm_num
    have htot : sale.totalAmount = 59500 := by rw [h3, hsub, htax]; norm_num
    have hst : sale.status = "PAID" := h5 (by decide)
    simp [Except.toOption, hsub, htax, htot, hst]

/-- Claim C2: a sale creation request that passes validation and the customer
check but asks more of some line's product than its current stock is answered
with the insufficient-stock error naming that product and its available
quantity, and the database is left completely unchanged (no sale, line,
movement or credit row, no stock change): the whole pre-check runs before any
mutation. -/
theorem C2_insufficient_stock {db : DB} {req : SaleRequest} {inv : String} {now : Int}
    {sid : Nat}
    (hval : validRequest req = true)
    (hcust : customerOk db req.customerId = true)
    (hall : ∀ it ∈ req.items, (findProduct db.products it.productId).isSome = true)
    (hbad : ∃ it ∈ req.items, ∃ p, findProduct db.products it.productId = some p ∧
      p.stock < it.quantity) :
    (∃ it ∈ req.items, ∃ p, findProduct db.products it.productId = some p ∧
      p.stock < it.quantity ∧
      (postSale db req inv now sid).2 =
        Except.error (SaleError.insufficientStock p.name p.stock)) ∧
    (postSale db req inv now sid).1 = db := by
  obtain ⟨it, hit, p, hp, hlt, herr⟩ := stockError_insufficient hall hbad
  have hcs : createSale db req inv now sid =
      Except.error (SaleError.insufficientStock p.name p.stock) := by
    rw [createSale, if_neg (by simp [hval]), if_neg (by simp [hcust]), herr]
  exact ⟨⟨it, hit, p, hp, hlt, by rw [postSale, hcs]⟩, by rw [postSale, hcs]⟩

/-- Witness for C2 (Scenario B): with stock 8 a request for 9 units is
rejected naming the product and the available 8, and the state is unchanged. -/
theorem C2_insufficient_stock_witness :
    (postSale c2Db c2Req "INV-0002" 0 1).1 = c2Db ∧
    (postSale c2Db c2Req "INV-0002" 0 1).2 =
      Except.error (SaleError.insufficientStock "Producto P" 8) := by
  have h := @C2_insufficient_stock c2Db c2Req "INV-0002" 0 1 (by decide) (by decide)
    (by decide)
    ⟨{ productId := 1, quantity := 9, unitPrice := 25000 }, by decide,
      { id := 1, name := "Producto P", stock := 8 }, by decide, by decide⟩
  exact ⟨h.2, rfl⟩

/-- Claim C3: an accepted sale decrements, for each product, the stock by the
total quantity its lines ask (each line by exactly its quantity), and appends
exactly one SALE inventory movement per line, in order, carrying `-quantity`,
the previous/new stock snapshots taken around that line's decrement, and a
reference naming the invoice.  The boundary instance (quantity equal to the
whole stock, leaving stock 0) is `C3_lines_decrement_witness`. -/
theorem C3_lines_decrement {db : DB} {req : SaleRequest} {inv : String} {now : Int}
    {sid : Nat} {db' : DB} {sale : Sale}
    (h : createSale db req inv now sid = Except.ok (db', sale)) :
    (∀ pid, stockOf db'.products pid =
      (stockOf db.products pid).map fun s => s - qtySumReq req.items pid) ∧
    ∃ ms, db'.movements = db.movements ++ ms ∧ ms.length = req.items.length ∧
      movsRecord inv db.products req.items ms := by
  obtain ⟨hp, -, -, -, ⟨ms, hms, hmr⟩, -, -⟩ := createSale_effects h
  refine ⟨fun pid => ?_, ms, hms, movsRecord_length inv req.items db.products ms hmr, hmr⟩
  rw [hp, stockOf_shiftStock]
  cases stockOf db.products pid with
  | none => rfl
  | some s => simp [Int.sub_eq_add_neg]

/-- Witness for C3 (boundary): a line of quantity 5 against stock 5 is
accepted, leaves the stock at exactly 0, and appends one movement. -/
theorem C3_lines_decrement_witness :
    ((createSale c3Db c3Req "INV-0003" 0 1).toOption.map fun r =>
        (stockOf r.1.products 1, r.1.movements.length)) = some (some 0, 1) := by
  have hsome : (createSale c3Db c3Req "INV-0003" 0 1).toOption.isSome = true := rfl
  cases hc : createSale c3Db c3Req "INV-0003" 0 1 with
  | error e => rw [hc] at hsome; simp [Except.toOption] at hsome
  | ok r =>
    obtain ⟨db', sale⟩ := r
    obtain ⟨h1, ms, hms, hlen, -⟩ := C3_lines_decrement hc
    have hstock : stockOf db'.products 1 = some 0 := (h1 1).trans (by decide)
    have hmov : db'.movements.length = 1 := by
      rw [hms, List.length_append, hlen]
      decide
    simp [Except.toOption, hstock, hmov]

/-- Claim C4: updating an existing non-cancelled sale's status to cancelled
increments each involved product's stock by the sale's line quantity for that
product (so a stock that currently sits at its pre-sale value minus the sold
quantity is restored to exactly the pre-sale value), and appends exactly one
SALE_CANCELLATION movement per line item carrying `+quantity`. -/
theorem C4_cancel_restores {db : DB} {sid : Nat} {sale : Sale} {db' : DB}
    (hfind : findSale db.sales sid = some sale)
    (hstat : sale.status ≠ "cancelled")
    (h : updateSaleStatus db sid "cancelled" = Except.ok db') :
    (∀ pid, stockOf db'.products pid =
      (stockOf db.products pid).map fun s => s + qtySumItems (saleItemsOf db sid) pid) ∧
    (∀ pid s0, stockOf db.products pid = some (s0 - qtySumItems (saleItemsOf db sid) pid) →
      stockOf db'.products pid = some s0) ∧
    ∃ ms, db'.movements = db.movements ++ ms ∧
      List.Forall₂ (cancelMovMatches sale.invoiceNumber) (saleItemsOf db sid) ms := by
  obtain ⟨-, sale0, hfind0, db1, hres, -, hdb'⟩ := updateSaleStatus_ok h
  rw [hfind, Option.some.injEq] at hfind0
  subst hfind0
  have hrest := hres ⟨rfl, hstat⟩
  obtain ⟨hp1, -, -, -, -, ⟨ms, hms, hmr⟩⟩ :=
    restoreItems_spec sale.invoiceNumber (saleItemsOf db sid) db db1 hrest
  subst hdb'
  have hstock : ∀ pid, stockOf db1.products pid =
      (stockOf db.products pid).map fun s => s + qtySumItems (saleItemsOf db sid) pid := by
    intro pid
    rw [hp1, stockOf_shiftStock]
  refine ⟨hstock, fun pid s0 hpre => ?_, ms, hms, hmr⟩
  have h2 := hstock pid
  rw [hpre] at h2
  show stockOf db1.products pid = some s0
  rw [h2, Option.map_some']
  rw [Int.sub_add_cancel]

/-- Witness for C4: cancelling the pending 2-unit sale of `c4Db` (current
stock 3, pre-sale 5) yields `c4Db1`, whose product stock is back at 5 with
one compensating movement appended. -/
theorem C4_cancel_restores_witness :
    updateSaleStatus c4Db 1 "cancelled" = Except.ok c4Db1 ∧
    stockOf c4Db1.products 1 = some 5 ∧
    c4Db1.movements.length = 1 := by
  have hcancel : updateSaleStatus c4Db 1 "cancelled" = Except.ok c4Db1 := rfl
  have hfind : findSale c4Db.sales 1 = some
      { id := 1, invoiceNumber := "INV-0004", customerId := none,
        customerName := "Cliente General", subtotal := 2000, taxAmount := 380,
        totalAmount := 2380, paymentMethod := "cash", status := "PENDING" } := rfl
  obtain ⟨-, h2, -⟩ := C4_cancel_restores hfind (by decide) hcancel
  exact ⟨hcancel, h2 1 5 (by decide), rfl⟩

/-- Claim C5 (code bug): the delete guard compares the stored status to the
string "completed", but the creation path stores "PAID" for every paid
(non-credit) sale, so a paid sale passes the guard: deleting the PAID sale of
`c5Db` succeeds — the sale row and its line are removed and the product stock
is restored from 10 to 12 — instead of failing with the 400 ConflictError the
specification requires for paid sales. -/
theorem C5_paid_sale_deletable :
    (findSale c5Db.sales 1).map (fun s => s.status) = some "PAID" ∧
    ((deleteSale c5Db 1).toOption.map fun db2 =>
        (findSale db2.sales 1, db2.products.map fun p => p.stock, db2.saleItems.length)) =
      some (none, [12], 0) :=
  ⟨rfl, rfl⟩

/-- Claim C6: a credit row is created by sale creation if and only if the
payment method is credit and a customerId was supplied; the created row has
amount = totalAmount, balance = totalAmount, status ACTIVE and a due date 30
days (in milliseconds) after creation time; a credit sale without a customer
creates no credit row, and every credit sale is stored with status PENDING. -/
theorem C6_credit_iff {db : DB} {req : SaleRequest} {inv : String} {now : Int} {sid : Nat}
    {db' : DB} {sale : Sale}
    (h : createSale db req inv now sid = Except.ok (db', sale)) :
    (∀ cid, req.customerId = some cid → req.paymentMethod = "credit" →
      db'.credits = db.credits ++ [mkSaleCredit cid sale.totalAmount now inv] ∧
      (mkSaleCredit cid sale.totalAmount now inv).amount = sale.totalAmount ∧
      (mkSaleCredit cid sale.totalAmount now inv).balance = sale.totalAmount ∧
      (mkSaleCredit cid sale.totalAmount now inv).status = "ACTIVE" ∧
      (mkSaleCredit cid sale.totalAmount now inv).dueDate = now + 30 * 24 * 60 * 60 * 1000) ∧
    ((req.paymentMethod ≠ "credit" ∨ req.customerId = none) → db'.credits = db.credits) ∧
    (req.paymentMethod = "credit" → sale.status = "PENDING") := by
  obtain ⟨-, -, -, hsale, -⟩ := createSale_ok h
  obtain ⟨-, -, -, -, -, hpos, hneg⟩ := createSale_effects h
  subst hsale
  refine ⟨fun cid hcid hpm => ⟨hpos cid hcid hpm, rfl, rfl, rfl, rfl⟩, hneg, fun hpm => ?_⟩
  show (if req.paymentMethod = "credit" then "PENDING" else "PAID") = "PENDING"
  rw [if_pos hpm]

/-- Witness for C6 (Scenarios C and D): a credit sale with customer 7 at time
5 creates exactly one credit row with status ACTIVE and due date
5 + 2592000000 ms and leaves the sale PENDING, while the same credit sale
without a customer creates no credit row yet is still PENDING. -/
theorem C6_credit_iff_witness :
    ((createSale c6Db c6Req "INV-0006" 5 1).toOption.map fun r =>
        (r.1.credits.map fun c => (c.customerId, c.status, c.dueDate), r.2.status)) =
      some ([(7, "ACTIVE", 2592000005)], "PENDING") ∧
    ((createSale c6Db c6ReqW "INV-0016" 0 2).toOption.map fun r =>
        (r.1.credits.length, r.2.status)) = some (0, "PENDING") := by
  constructor
  · have hsome : (createSale c6Db c6Req "INV-0006" 5 1).toOption.isSome = true := rfl
    cases hc : createSale c6Db c6Req "INV-0006" 5 1 with
    | error e => rw [hc] at hsome; simp [Except.toOption] at hsome
    | ok r =>
      obtain ⟨db', sale⟩ := r
      obtain ⟨hpos, -, hpend⟩ := C6_credit_iff hc
      obtain ⟨hcr, -⟩ := hpos 7 rfl rfl
      simp [Except.toOption, hcr, hpend rfl, c6Db, mkSaleCredit, defaultSaleCreditBalance]
  · have hsome : (createSale c6Db c6ReqW "INV-0016" 0 2).toOption.isSome = true := rfl
    cases hc : createSale c6Db c6ReqW "INV-0016" 0 2 with
    | error e => rw [hc] at hsome; simp [Except.toOption] at hsome
    | ok r =>
      obtain ⟨db', sale⟩ := r
      obtain ⟨-, hneg, hpend⟩ := C6_credit_iff hc
      have hcr := hneg (Or.inr rfl)
      simp [Except.toOption, hcr, hpend rfl, c6Db]

/-- Counterexample to claim C7: PAID is not terminal.  The sale of `c7Db` is
stored with status "PAID", yet one updateStatus call moves it to "pending" —
the status update handler enforces no transition restriction at all. -/
theorem C7_counterexample :
    (findSale c7Db.sales 1).map (fun s => s.status) = some "PAID" ∧
    ((updateSaleStatus c7Db 1 "pending").toOption.map fun db2 =>
        (findSale db2.sales 1).map fun s => s.status) = some (some "pending") :=
  ⟨rfl, rfl⟩

/-- Claim C7 as amended: the status update endpoint imposes no transition
guard.  For every existing sale and every requested status among pending,
completed and cancelled (provided the compensating restore can run, i.e. the
line products exist), the update succeeds and the stored status becomes the
requested value regardless of the current status — PAID and CANCELLED are not
terminal; the only transition-sensitive behaviour is the stock restore when
entering cancelled from a non-cancelled status. -/
theorem C7_no_transition_guard {db : DB} {sid : Nat} {sale : Sale} (st : String)
    (hfind : findSale db.sales sid = some sale)
    (hst : validStatus st = true)
    (hprod : ∀ si ∈ saleItemsOf db sid, (findProduct db.products si.productId).isSome = true) :
    ∃ db', updateSaleStatus db sid st = Except.ok db' ∧
      (findSale db'.sales sid).map (fun s => s.status) = some st := by
  by_cases hc : st = "cancelled" ∧ sale.status ≠ "cancelled"
  · obtain ⟨db1, hdb1⟩ := restoreItems_isSome sale.invoiceNumber (saleItemsOf db sid) db hprod
    obtain ⟨-, -, hsales1, -, -, -⟩ :=
      restoreItems_spec sale.invoiceNumber (saleItemsOf db sid) db db1 hdb1
    refine ⟨{ db1 with
        sales := db1.sales.map fun s => if s.id = sid then { s with status := st } else s },
      ?_, ?_⟩
    · simp only [updateSaleStatus, if_neg (show ¬¬validStatus st = true by simp [hst]),
        hfind, if_pos hc, hdb1]
    · show (findSale (db1.sales.map fun s =>
          if s.id = sid then { s with status := st } else s) sid).map _ = some st
      rw [hsales1, findSale_set_status, hfind]
      rfl
  · refine ⟨{ db with
        sales := db.sales.map fun s => if s.id = sid then { s with status := st } else s },
      ?_, ?_⟩
    · simp only [updateSaleStatus, if_neg (show ¬¬validStatus st = true by simp [hst]),
        hfind, if_neg hc]
    · show (findSale (db.sales.map fun s =>
          if s.id = sid then { s with status := st } else s) sid).map _ = some st
      rw [findSale_set_status, hfind]
      rfl

/-- Witness for the amended C7: the PAID sale of `c7Db` can also be moved to
"completed" by a single updateStatus call. -/
theorem C7_no_transition_guard_witness :
    ((updateSaleStatus c7Db 1 "completed").toOption.map fun db2 =>
        (findSale db2.sales 1).map fun s => s.status) = some (some "completed") := by
  have hfind : findSale c7Db.sales 1 = some
      { id := 1, invoiceNumber := "INV-0007", customerId := none,
        customerName := "Cliente General", subtotal := 2000, taxAmount := 380,
        totalAmount := 2380, paymentMethod := "cash", status := "PAID" } := rfl
  obtain ⟨db', heq, hstv⟩ := C7_no_transition_guard "completed" hfind (by decide) (by decide)
  rw [heq]
  simp [Except.toOption, hstv]

/-- Claim C8: deleting an existing sale whose status is not the guard's
"completed" (every non-paid sale in particular) succeeds as one atomic unit
that increments each line product's stock by the line quantity, records no
inventory movement, deletes all the sale's line rows, and deletes the sale
row. -/
theorem C8_delete_restores {db : DB} {sid : Nat} {sale : Sale}
    (hfind : findSale db.sales sid = some sale)
    (hstat : sale.status ≠ "completed")
    (hprod : ∀ si ∈ saleItemsOf db sid, (findProduct db.products si.productId).isSome = true) :
    ∃ db', deleteSale db sid = Except.ok db' ∧
      (∀ pid, stockOf db'.products pid =
        (stockOf db.products pid).map fun s => s + qtySumItems (saleItemsOf db sid) pid) ∧
      db'.movements = db.movements ∧
      db'.saleItems = db.saleItems.filter (fun si => !(si.saleId == sid)) ∧
      db'.sales = db.sales.filter (fun s => !(s.id == sid)) := by
  obtain ⟨db1, hdb1⟩ := restoreStockOnly_isSome (saleItemsOf db sid) db hprod
  obtain ⟨hp1, -, hsales1, hsi1, -, hmov1⟩ :=
    restoreStockOnly_spec (saleItemsOf db sid) db db1 hdb1
  refine ⟨{ db1 with
      saleItems := db1.saleItems.filter fun si => !(si.saleId == sid)
      sales := db1.sales.filter fun s => !(s.id == sid) }, ?_, ?_, ?_, ?_, ?_⟩
  · simp only [deleteSale, hfind, if_neg hstat, hdb1]
  · intro pid
    show stockOf db1.products pid = _
    rw [hp1, stockOf_shiftStock]
  · exact hmov1
  · show db1.saleItems.filter _ = _
    rw [hsi1]
  · show db1.sales.filter _ = _
    rw [hsales1]

/-- Witness for C8: deleting the pending 2-unit sale of `c8Db` (stock 3)
yields `c8Db1`: stock back at 5, no movement logged, no line rows, no sale. -/
theorem C8_delete_restores_witness :
    deleteSale c8Db 1 = Except.ok c8Db1 ∧
    stockOf c8Db1.products 1 = some 5 ∧
    c8Db1.movements = c8Db.movements ∧
    c8Db1.saleItems = [] ∧ c8Db1.sales = [] := by
  have hfind : findSale c8Db.sales 1 = some
      { id := 1, invoiceNumber := "INV-0008", customerId := none,
        customerName := "Cliente General", subtotal := 2000, taxAmount := 380,
        totalAmount := 2380, paymentMethod := "cash", status := "PENDING" } := rfl
  obtain ⟨db', heq, hstock, -, -, -⟩ := C8_delete_restores hfind (by decide) (by decide)
  have h2 : Except.ok db' = Except.ok c8Db1 :=
    heq.symm.trans (show deleteSale c8Db 1 = Except.ok c8Db1 from rfl)
  rw [Except.ok.injEq] at h2
  subst h2
  exact ⟨heq, (hstock 1).trans (by decide), rfl, rfl, rfl⟩

/-- Counterexample to claim C9: the stock non-negativity invariant fails as
stated.  From `c9CexDb`, whose only product has stock 10 ≥ 0, the accepted
request `c9CexReq` with two lines of 6 units for the same product (each line
passing the per-line pre-check against the unmutated stock of 10) drives the
stock to -2. -/
theorem C9_counterexample :
    (c9CexDb.products.map fun p => p.stock) = [10] ∧
    ((createSale c9CexDb c9CexReq "INV-0019" 0 1).toOption.map fun r =>
        r.1.products.map fun p => p.stock) = some [-2] :=
  ⟨rfl, rfl⟩

/-- Claim C9 as amended: in every state reachable through the sales
operations from a state satisfying the stock invariant, all product stocks
are non-negative, provided (as `C9_counterexample` forces) each accepted
creation request's line items reference pairwise-distinct products. -/
theorem C9_stock_nonneg {db db' : DB} (hinv : StockInv db)
    (hreach : Relation.ReflTransGen SalesStep db db') :
    ∀ p ∈ db'.products, 0 ≤ p.stock :=
  (stockInv_reach hinv hreach).2.1

/-- Witness for the amended C9: after the distinct-product sale `c9Req` is
accepted from `c9Db` (stock 4, one step of the relation), the product of the
resulting state `c9Db1` still has non-negative stock. -/
theorem C9_stock_nonneg_witness :
    (0 : Int) ≤ ({ id := 1, name := "Producto P", stock := 2 } : Product).stock := by
  have hstep : SalesStep c9Db c9Db1 :=
    SalesStep.create c9Req "INV-0009" 0 1 c9Sale (by decide) rfl
  exact C9_stock_nonneg ⟨by decide, by decide, by decide⟩
    (Relation.ReflTransGen.single hstep)
    { id := 1, name := "Producto P", stock := 2 } (by decide)

/-- Claim C10: the delete path restores stock unconditionally, with no check
that a cancellation already restored it.  Cancelling an existing
non-cancelled sale and then deleting it increments each line product's stock
twice: the final stock exceeds the pre-cancel stock by twice the line
quantity, and a stock that sat at its pre-sale value minus the sold quantity
ends strictly above the pre-sale value by exactly the line quantity. -/
theorem C10_cancel_then_delete {db : DB} {sid : Nat} {sale : Sale} {db1 db2 : DB}
    (hfind : findSale db.sales sid = some sale)
    (hstat : sale.status ≠ "cancelled")
    (hcancel : updateSaleStatus db sid "cancelled" = Except.ok db1)
    (hdel : deleteSale db1 sid = Except.ok db2) :
    (∀ pid, stockOf db2.products pid =
      (stockOf db.products pid).map fun s => s + 2 * qtySumItems (saleItemsOf db sid) pid) ∧
    (∀ pid s0, 0 < qtySumItems (saleItemsOf db sid) pid →
      stockOf db.products pid = some (s0 - qtySumItems (saleItemsOf db sid) pid) →
      ∃ s1, stockOf db2.products pid = some s1 ∧ s0 < s1) := by
  obtain ⟨-, sale0, hfind0, dbr, hres, -, hdb1⟩ := updateSaleStatus_ok hcancel
  rw [hfind, Option.some.injEq] at hfind0
  subst hfind0
  have hrest := hres ⟨rfl, hstat⟩
  obtain ⟨hpr, -, hsalesr, hsir, -, -⟩ :=
    restoreItems_spec sale.invoiceNumber (saleItemsOf db sid) db dbr hrest
  obtain ⟨sale1, -, -, dd, hrest2, hdb2⟩ := deleteSale_ok hdel
  obtain ⟨hpd, -, -, -, -, -⟩ := restoreStockOnly_spec (saleItemsOf db1 sid) db1 dd hrest2
  have hitems : saleItemsOf db1 sid = saleItemsOf db sid := by
    rw [saleItemsOf, saleItemsOf]
    subst hdb1
    show (dbr.saleItems.filter _) = db.saleItems.filter _
    rw [hsir]
  have hprod1 : db1.products = shiftStock (fun i => qtySumItems (saleItemsOf db sid) i)
      db.products := by
    subst hdb1
    show dbr.products = _
    rw [hpr]
  have hprod2 : db2.products =
      shiftStock (fun i =>
        qtySumItems (saleItemsOf db sid) i + qtySumItems (saleItemsOf db sid) i)
        db.products := by
    subst hdb2
    show dd.products = _
    rw [hpd, hitems, hprod1, shiftStock_shiftStock]
  have hstock : ∀ pid, stockOf db2.products pid =
      (stockOf db.products pid).map fun s =>
        s + 2 * qtySumItems (saleItemsOf db sid) pid := by
    intro pid
    rw [hprod2, stockOf_shiftStock]
    cases stockOf db.products pid with
    | none => rfl
    | some s =>
      rw [Option.map_some', Option.map_some', Option.some.injEq]
      omega
  refine ⟨hstock, fun pid s0 hq hpre => ?_⟩
  refine ⟨s0 + qtySumItems (saleItemsOf db sid) pid, ?_, by omega⟩
  rw [hstock pid, hpre, Option.map_some', Option.some.injEq]
  omega

/-- Witness for C10: the pending 2-unit sale of `c10Db` (stock 3, pre-sale 5)
cancelled and then deleted leaves the product at stock 7 = 5 + 2, strictly
above its pre-sale value. -/
theorem C10_cancel_then_delete_witness :
    stockOf c10Db.products 1 = some 3 ∧
    updateSaleStatus c10Db 1 "cancelled" = Except.ok c10Db1 ∧
    deleteSale c10Db1 1 = Except.ok c10Db2 ∧
    stockOf c10Db2.products 1 = some 7 := by
  have hcancel : updateSaleStatus c10Db 1 "cancelled" = Except.ok c10Db1 := rfl
  have hdel : deleteSale c10Db1 1 = Except.ok c10Db2 := rfl
  have hfind : findSale c10Db.sales 1 = some
      { id := 1, invoiceNumber := "INV-0010", customerId := none,
        customerName := "Cliente General", subtotal := 2000, taxAmount := 380,
        totalAmount := 2380, paymentMethod := "cash", status := "PENDING" } := rfl
  obtain ⟨h1, -⟩ := C10_cancel_then_delete hfind (by decide) hcancel hdel
  exact ⟨rfl, hcancel, hdel, (h1 1).trans (by decide)⟩

end Suaza
